import Mathlib

/-!
Verification development for the Axis website auditor/downloader
(`src/app.js`).  The JavaScript pipeline `processSite` is shallowly
embedded below: the DOM is a list of the node shapes the pipeline
queries, the injected transport is a `Fetcher` record, the JSZip
container is an append-only write log, and the WHATWG `URL` platform
primitive is modelled by `parseAbs`/`resolveUrl` for the http(s)
subset that the program exercises.
-/

namespace Axis

/-- JavaScript `s || d` on strings: the empty string is falsy. -/
def jsOr (s d : String) : String := if s = "" then d else s

/-! ### Structural string helpers

Kernel-evaluable counterparts of the byte-position-based core string
functions, so that concrete runs of the model can be checked by
`decide`.  Each mirrors the corresponding JavaScript string method. -/

/-- ASCII lowercasing of one character (`String.prototype.toLowerCase`). -/
def charLower (c : Char) : Char :=
  if 'A' ≤ c ∧ c ≤ 'Z' then Char.ofNat (c.toNat + 32) else c

/-- JavaScript `toLowerCase`. -/
def sLower (s : String) : String := String.mk (s.toList.map charLower)

/-- Whether `pre` is a leading substring of `s`. -/
def sStartsWith (s pre : String) : Bool := pre.toList.isPrefixOf s.toList

/-- Drop the first `n` characters of `s`. -/
def sDrop (s : String) (n : Nat) : String := String.mk (s.toList.drop n)

/-- JavaScript `split` on a one-character separator. -/
def splitOnChar (c : Char) : List Char → List (List Char)
  | [] => [[]]
  | x :: xs =>
    if x = c then [] :: splitOnChar c xs
    else
      match splitOnChar c xs with
      | [] => [[x]]
      | a :: as => (x :: a) :: as

/-- JavaScript `split` on a one-character separator, on strings. -/
def sSplit (c : Char) (s : String) : List String :=
  (splitOnChar c s.toList).map String.mk

/-- Parse a digits-only string as a number (URL port parsing). -/
def sToNat (s : String) : Option Nat :=
  if s.toList ≠ [] ∧ s.toList.all Char.isDigit then
    some (s.toList.foldl (fun n c => n * 10 + (c.toNat - 48)) 0)
  else none

/-- Whether `s` contains the character `c` (`String.prototype.includes`). -/
def sContains (s : String) (c : Char) : Bool := s.toList.contains c

/-- JavaScript `trim`: strip leading and trailing whitespace. -/
def sTrim (s : String) : String :=
  String.mk (((s.toList.dropWhile Char.isWhitespace).reverse.dropWhile Char.isWhitespace).reverse)

/-- The number of characters in `s`. -/
def sLength (s : String) : Nat := s.toList.length

/-! ## Model of the WHATWG `URL` platform primitive

`app.js` delegates URL parsing and relative resolution to the browser's
`new URL(...)`.  The subset modelled here covers absolute `http:`/`https:`
URLs with host, optional port, path, and query — the shapes the program
and its spec exercise — including host lowercasing, default-port
elision, and dot-segment removal. -/

structure URLRec where
  scheme : String
  host : String
  port : String
  pathname : String
  search : String
deriving DecidableEq, Repr

/-- RFC 3986 / WHATWG dot-segment removal on an absolute path. -/
def removeDotSegments (p : String) : String :=
  let segs := (sSplit '/' p).drop 1
  let step : List String → String → List String := fun acc seg =>
    if seg = "." then acc
    else if seg = ".." then acc.dropLast
    else acc ++ [seg]
  let fix : List String → List String := fun acc =>
    if (segs.getLast?.getD "") = "." ∨ (segs.getLast?.getD "") = ".." then acc ++ [""] else acc
  "/" ++ String.intercalate "/" (fix (segs.foldl step []))

/-- Split a string at the first occurrence of a character, if present. -/
def splitFirst (c : Char) (s : List Char) : List Char × Option (List Char) :=
  match s with
  | [] => ([], none)
  | x :: xs =>
    if x = c then ([], some xs)
    else
      let (a, b) := splitFirst c xs
      (x :: a, b)

/-- Parse an absolute `http(s)` URL as the browser's `new URL` would
(host lowercased, default port elided, dot-segments removed, fragment
dropped); `none` models the constructor throwing. -/
def parseAbs (s : String) : Option URLRec :=
  let t := sLower s
  let core : Option (String × String × Nat) :=
    if sStartsWith t "https://" then some ("https", (sDrop s 8), 443)
    else if sStartsWith t "http://" then some ("http", (sDrop s 7), 80)
    else none
  match core with
  | none => none
  | some (scheme, rest, defPort) =>
    let restL := rest.toList
    let authority : List Char := restL.takeWhile (fun c => c ≠ '/' ∧ c ≠ '?' ∧ c ≠ '#')
    let remainder : List Char := restL.dropWhile (fun c => c ≠ '/' ∧ c ≠ '?' ∧ c ≠ '#')
    let parts := sSplit ':' (String.mk authority)
    let hostRaw := if parts.length ≤ 1 then String.mk authority
                   else String.intercalate ":" parts.dropLast
    let portRaw := if parts.length ≤ 1 then "" else parts.getLastD ""
    let host := sLower hostRaw
    if host = "" then none
    else
      let portOk : Option String :=
        if portRaw = "" then some ""
        else match sToNat portRaw with
             | none => none
             | some n => some (if n = defPort then "" else toString n)
      match portOk with
      | none => none
      | some port =>
        let noFrag := (splitFirst '#' remainder).1
        let (pathPart, q) := splitFirst '?' noFrag
        let search := match q with
                      | none => ""
                      | some qs => "?" ++ String.mk qs
        let pathname := if pathPart = [] then "/" else removeDotSegments (String.mk pathPart)
        some { scheme := scheme, host := host, port := port,
               pathname := pathname, search := search }

/-- Serialize a parsed URL back to a string (`URL.href`, fragment-free). -/
def URLRec.href (u : URLRec) : String :=
  u.scheme ++ "://" ++ u.host ++ (if u.port = "" then "" else ":" ++ u.port) ++
    u.pathname ++ u.search

/-- The directory part of a path: everything up to and including the last `/`. -/
def dirOf (p : String) : String :=
  let l := p.toList.reverse.dropWhile (fun c => c ≠ '/')
  String.mk l.reverse

/-- Model of `new URL(relative, base)` for the shapes the program uses:
absolute inputs, scheme-relative, root-relative, query-only, fragment-only,
and path-relative references; `none` models the constructor throwing. -/
def parseWithBase (rel base : String) : Option URLRec :=
  match parseAbs rel with
  | some u => some u
  | none =>
    match parseAbs base with
    | none => none
    | some b =>
      if rel = "" then some b
      else if sStartsWith rel "//" then parseAbs (b.scheme ++ ":" ++ rel)
      else
        let relL := rel.toList
        let noFrag := (splitFirst '#' relL).1
        let (pathPart, q) := splitFirst '?' noFrag
        let search := match q with
                      | none => ""
                      | some qs => "?" ++ String.mk qs
        if sStartsWith rel "?" then some { b with search := String.mk noFrag }
        else if sStartsWith rel "#" then some b
        else if sStartsWith rel "/" then
          some { b with pathname := removeDotSegments (String.mk pathPart), search := search }
        else if pathPart = [] then some { b with search := search }
        else
          some { b with pathname := removeDotSegments (dirOf b.pathname ++ String.mk pathPart),
                        search := search }

/-- Model of `resolveUrl` (app.js lines 63-66): `new URL(relative, base).href`,
falling back to the raw `relative` string when construction throws. -/
def resolveUrl (base relative : String) : String :=
  match parseWithBase relative base with
  | some u => u.href
  | none => relative

/-- The regex fallback of `domainFromUrl` (app.js line 103):
`fullUrl.replace(/^https?:\/\//,'').split('/')[0]` — the regex is
case-sensitive and anchored. -/
def stripScheme (s : String) : String :=
  if sStartsWith s "https://" then sDrop s 8
  else if sStartsWith s "http://" then sDrop s 7
  else s

/-- Model of `domainFromUrl` (app.js lines 97-105): `new URL(fullUrl).hostname`,
with a regex fallback when the constructor throws. -/
def domainFromUrl (fullUrl : String) : String :=
  match parseAbs fullUrl with
  | some u => u.host
  | none => (sSplit '/' (stripScheme fullUrl)).headD ""

/-! ## CSS `url(...)` extraction

`extractUrlsFromCss` (app.js lines 69-77) repeatedly executes the regex
`/url\((?:'|")?([^'")]+)(?:'|")?\)/g` and collects capture group 1.
The matcher below is that regex made explicit: since the character
class excludes both quote characters and `)`, the only successful
backtracking paths are the ones enumerated in `finishRun`. -/

/-- A character admissible in the regex body class `[^'")]`. -/
def isUrlBodyChar (c : Char) : Bool := c ≠ '\'' ∧ c ≠ '"' ∧ c ≠ ')'

/-- A single or double quote character. -/
def isQuote (c : Char) : Bool := c = '\'' ∨ c = '"'

/-- Match `([^'")]+)(?:'|")?\)` at the head of `cs`, returning the
capture and the remainder after the closing parenthesis. -/
def finishRun (cs : List Char) : Option (List Char × List Char) :=
  let run := cs.takeWhile isUrlBodyChar
  if run.isEmpty then none
  else
    match cs.drop run.length with
    | ')' :: r => some (run, r)
    | q :: ')' :: r => if isQuote q then some (run, r) else none
    | _ => none

/-- Match `(?:'|")?([^'")]+)(?:'|")?\)` at the head of `cs` (the part of
the regex after the literal `url(`). -/
def matchBody (cs : List Char) : Option (List Char × List Char) :=
  match cs with
  | [] => none
  | c :: rest => if isQuote c then finishRun rest else finishRun cs

/-- The global-regex `exec` loop of `extractUrlsFromCss`: try each start
position left to right; on a match, emit capture group 1 and resume
after the match.  `fuel` bounds the recursion by the input length. -/
def extractLoop : Nat → List Char → List String
  | 0, _ => []
  | _, [] => []
  | fuel + 1, c :: rest =>
    if c = 'u' ∧ rest.take 3 = ['r', 'l', '('] then
      match matchBody (rest.drop 3) with
      | some (run, after) => String.mk run :: extractLoop fuel after
      | none => extractLoop fuel rest
    else extractLoop fuel rest

/-- Model of `extractUrlsFromCss` (app.js lines 69-77). -/
def extractUrlsFromCss (css : String) : List String :=
  extractLoop css.toList.length css.toList

/-- The `safeName` sanitization (app.js line 434):
`domainName.replace(/[:\/\\?%*\|"<> ]+/g,'-')`. -/
def isBadNameChar (c : Char) : Bool :=
  c = ':' ∨ c = '/' ∨ c = '\\' ∨ c = '?' ∨ c = '%' ∨ c = '*' ∨
  c = '|' ∨ c = '"' ∨ c = '<' ∨ c = '>' ∨ c = ' '

/-- Replace each maximal run of characters from the sanitization set with
one hyphen; `inRun` records whether the previous character was in a run. -/
def sanAux : Bool → List Char → List Char
  | _, [] => []
  | inRun, c :: cs =>
    if isBadNameChar c then
      (if inRun then sanAux true cs else '-' :: sanAux true cs)
    else c :: sanAux false cs

/-- The sanitized domain used for the archive name (app.js line 434). -/
def sanitizeDomain (s : String) : String := String.mk (sanAux false s.toList)

/-- The archive name (app.js lines 433-435):
`` `${(domainFromUrl(url) || 'site').replace(...)}.zip` ``. -/
def zipNameOf (url : String) : String :=
  sanitizeDomain (jsOr (domainFromUrl url) "site") ++ ".zip"

/-- Model of `fileNameFromUrl` (app.js lines 80-94): last non-empty path segment,
query-stripped, with a (≤5 chars) extension guessed from the pathname
when the segment has no dot; `'index'` when no segment exists, `'asset'`
on parse failure or an empty final name. -/
def fileNameFromUrl (url : String) : String :=
  match parseAbs url with
  | none => "asset"
  | some u =>
    let name0 := ((((sSplit '/' u.pathname)).filter (fun s => s ≠ "")).getLast?).getD "index"
    let name1 := (sSplit '?' name0).headD ""
    let name2 :=
      if sContains name1 '.' then name1
      else
        let ext := sLower ((((sSplit '.' u.pathname)).getLast?).getD "")
        if ext ≠ "" ∧ sLength ext ≤ 5 then name1 ++ "." ++ ext else name1
    if name2 = "" then "asset" else name2


/-! ## The document and pipeline model

`processSite` (app.js lines 211-452) is embedded as a pure function.
The DOM is a head/body pair of node lists covering exactly the node
shapes the pipeline queries; `DOMParser`, `outerHTML` serialization
and the heuristic scan's report text are injected as function
parameters (they are platform/out-of-core collaborators).  The JSZip
container is the append-only `writes` log (a later write to the same
path overwrites an earlier one), and every call to the injected
transport is recorded in `trace` in program order. -/

inductive Node where
  | styleBlock (text : String)
  | inlineScript (text : String)
  | linkStylesheet (href : String)
  | scriptSrc (src : String)
  | img (src : String)
  | linkIcon (href : String)
  | linkPreloadFont (href : String)
deriving DecidableEq, Repr

structure Doc where
  head : List Node
  body : List Node
deriving DecidableEq, Repr

/-- One invocation of the injected transport: `fetch` of text or of a blob. -/
inductive Call where
  | text (url : String)
  | blob (url : String)
deriving DecidableEq, Repr

/-- The injected transport: `none` models any throw / non-ok status. -/
structure Fetcher where
  text : String → Option String
  blob : String → Option String

/-- Model of `fetchText` (app.js lines 39-49): every failure becomes `''`. -/
def fetchText (f : Fetcher) (url : String) : String := (f.text url).getD ""

/-- Model of `fetchBlob` (app.js lines 50-60): every failure becomes `null`. -/
def fetchBlob (f : Fetcher) (url : String) : Option String := f.blob url

/-- The `metaInfo` record (app.js lines 254-258): an image entry records
`fname:null` when its fetch failed. -/
structure Meta where
  cssFiles : List (String × String) := []
  jsFiles : List (String × String) := []
  images : List (String × Option String) := []
  fonts : List (String × String) := []
  inlineCssBlocks : Nat := 0
  inlineJsBlocks : Nat := 0
  inlineCssSize : Nat := 0
  inlineJsSize : Nat := 0
deriving DecidableEq, Repr

/-- Mutable run state threaded through the phases: the transport-call
trace, the archive write log, and the growing `metaInfo` lists. -/
structure St where
  trace : List Call := []
  writes : List (String × String) := []
  cssFiles : List (String × String) := []
  jsFiles : List (String × String) := []
  images : List (String × Option String) := []
  fonts : List (String × String) := []
deriving DecidableEq, Repr

/-- Map over a node list in document order while threading the run state. -/
def mapAccum (f : St → Node → St × Node) : St → List Node → St × List Node
  | s, [] => (s, [])
  | s, n :: ns =>
    let (s1, n1) := f s n
    let (s2, ns1) := mapAccum f s1 ns
    (s2, n1 :: ns1)

/-- Apply a per-node step to the whole document, head before body
(`querySelectorAll` document order). -/
def overDoc (f : St → Node → St × Node) (s : St) (d : Doc) : St × Doc :=
  let (s1, h1) := mapAccum f s d.head
  let (s2, b1) := mapAccum f s1 d.body
  (s2, { head := h1, body := b1 })

def fontExts : List String := ["woff", "woff2", "ttf", "otf", "eot"]
def imgExts : List String := ["png", "jpg", "jpeg", "gif", "svg", "webp", "avif"]

/-- The extension test of app.js lines 293 and 381:
`(url.split('.').pop() || '').split('?')[0].toLowerCase()`. -/
def extOf (assetUrl : String) : String :=
  sLower ((sSplit '?' (((sSplit '.' assetUrl).getLast?).getD "")).headD "")

/-- The `url(...)`-asset loop inside the external-CSS phase
(app.js lines 291-304): fonts and images by extension allow-list,
everything else silently skipped; each URL resolves against the
stylesheet's own absolute URL `base`. -/
def cssAssets (f : Fetcher) (base : String) : List String → St → St
  | [], s => s
  | u :: us, s =>
    let assetUrl := resolveUrl base u
    let ext := extOf assetUrl
    let s1 :=
      if fontExts.contains ext then
        let s' := { s with trace := s.trace ++ [Call.blob assetUrl] }
        match fetchBlob f assetUrl with
        | some b =>
          let fn := fileNameFromUrl assetUrl
          { s' with writes := s'.writes ++ [("website/fonts/" ++ fn, b)],
                    fonts := s'.fonts ++ [(assetUrl, fn)] }
        | none => s'
      else if imgExts.contains ext then
        let s' := { s with trace := s.trace ++ [Call.blob assetUrl] }
        match fetchBlob f assetUrl with
        | some b =>
          let fn := fileNameFromUrl assetUrl
          { s' with writes := s'.writes ++ [("website/images/" ++ fn, b)],
                    images := s'.images ++ [(assetUrl, some fn)] }
        | none => s'
      else s
    cssAssets f base us s1

/-- External-CSS phase step (app.js lines 278-305): fetch, store, record,
rewrite the `href` unconditionally, then chase the stylesheet's `url()`
tokens. -/
def cssStep (f : Fetcher) (pageUrl : String) (s : St) (n : Node) : St × Node :=
  match n with
  | Node.linkStylesheet href =>
    let resolved := resolveUrl pageUrl href
    let cssText := fetchText f resolved
    let s1 := { s with trace := s.trace ++ [Call.text resolved] }
    let fname := jsOr (fileNameFromUrl resolved) "style.css"
    let s2 := { s1 with writes := s1.writes ++ [("website/css/" ++ fname, cssText)],
                        cssFiles := s1.cssFiles ++ [(resolved, fname)] }
    let s3 := cssAssets f resolved (extractUrlsFromCss cssText) s2
    (s3, Node.linkStylesheet ("css/" ++ fname))
  | n => (s, n)

/-- External-JS phase step (app.js lines 310-320): fetch, store, record,
rewrite the `src` unconditionally. -/
def jsStep (f : Fetcher) (pageUrl : String) (s : St) (n : Node) : St × Node :=
  match n with
  | Node.scriptSrc src =>
    let resolved := resolveUrl pageUrl src
    let jsText := fetchText f resolved
    let s1 := { s with trace := s.trace ++ [Call.text resolved] }
    let fname := jsOr (fileNameFromUrl resolved) "script.js"
    let s2 := { s1 with writes := s1.writes ++ [("website/js/" ++ fname, jsText)],
                        jsFiles := s1.jsFiles ++ [(resolved, fname)] }
    (s2, Node.scriptSrc ("js/" ++ fname))
  | n => (s, n)

/-- Image phase step (app.js lines 325-340): rewrite only on a successful
blob fetch; a failure leaves the original `src` and records `fname:null`. -/
def imgStep (f : Fetcher) (pageUrl : String) (s : St) (n : Node) : St × Node :=
  match n with
  | Node.img src =>
    let resolved := resolveUrl pageUrl src
    let s1 := { s with trace := s.trace ++ [Call.blob resolved] }
    let fn := fileNameFromUrl resolved
    match fetchBlob f resolved with
    | some b =>
      ({ s1 with writes := s1.writes ++ [("website/images/" ++ fn, b)],
                 images := s1.images ++ [(resolved, some fn)] },
       Node.img ("images/" ++ fn))
    | none =>
      ({ s1 with images := s1.images ++ [(resolved, none)] }, n)
  | n => (s, n)

/-- Preload-font phase step (app.js lines 364-375): rewrite and record
only on success. -/
def preloadStep (f : Fetcher) (pageUrl : String) (s : St) (n : Node) : St × Node :=
  match n with
  | Node.linkPreloadFont href =>
    let resolved := resolveUrl pageUrl href
    let s1 := { s with trace := s.trace ++ [Call.blob resolved] }
    match fetchBlob f resolved with
    | some b =>
      let fn := fileNameFromUrl resolved
      ({ s1 with writes := s1.writes ++ [("website/fonts/" ++ fn, b)],
                 fonts := s1.fonts ++ [(resolved, fn)] },
       Node.linkPreloadFont ("fonts/" ++ fn))
    | none => (s1, n)
  | n => (s, n)

/-- Model of `querySelector('link[rel~="icon"], ...')`: the first icon link in
document order, if any. -/
def findIcon : List Node → Option String
  | [] => none
  | Node.linkIcon href :: _ => some href
  | _ :: ns => findIcon ns

/-- Rewrite the `href` of the first icon link in a node list. -/
def rewriteIconIn (fn : String) : List Node → List Node × Bool
  | [] => ([], false)
  | Node.linkIcon _ :: ns => (Node.linkIcon fn :: ns, true)
  | n :: ns =>
    let (ns1, done) := rewriteIconIn fn ns
    (n :: ns1, done)

/-- Rewrite the first icon link of the document (head before body). -/
def rewriteIcon (fn : String) (d : Doc) : Doc :=
  let (h1, done) := rewriteIconIn fn d.head
  if done then { d with head := h1 }
  else { d with body := (rewriteIconIn fn d.body).1 }

/-- Favicon phase (app.js lines 345-361): fetch the first icon link, or
probe `/favicon.ico` when none exists; the icon file lands at the
archive root and the `href` is rewritten only on success. -/
def iconPhase (f : Fetcher) (pageUrl : String) (s : St) (d : Doc) : St × Doc :=
  match findIcon (d.head ++ d.body) with
  | some href =>
    let resolved := resolveUrl pageUrl href
    let s1 := { s with trace := s.trace ++ [Call.blob resolved] }
    match fetchBlob f resolved with
    | some b =>
      let fn := jsOr (fileNameFromUrl resolved) "favicon.ico"
      ({ s1 with writes := s1.writes ++ [("website/" ++ fn, b)] }, rewriteIcon fn d)
    | none => (s1, d)
  | none =>
    let tryFav := resolveUrl pageUrl "/favicon.ico"
    let s1 := { s with trace := s.trace ++ [Call.blob tryFav] }
    match fetchBlob f tryFav with
    | some b => ({ s1 with writes := s1.writes ++ [("website/favicon.ico", b)] }, d)
    | none => (s1, d)

/-- Inline-CSS `url(...)` font loop (app.js lines 377-386): only the
font-extension branch exists here; each URL resolves against the page
URL. -/
def inlineCssFonts (f : Fetcher) (pageUrl : String) : List String → St → St
  | [], s => s
  | u :: us, s =>
    let resolved := resolveUrl pageUrl u
    let ext := extOf resolved
    let s1 :=
      if fontExts.contains ext then
        let s' := { s with trace := s.trace ++ [Call.blob resolved] }
        match fetchBlob f resolved with
        | some b =>
          let fn := fileNameFromUrl resolved
          { s' with writes := s'.writes ++ [("website/fonts/" ++ fn, b)],
                    fonts := s'.fonts ++ [(resolved, fn)] }
        | none => s'
      else s
    inlineCssFonts f pageUrl us s1

def styleText : Node → Option String
  | Node.styleBlock t => some t
  | _ => none

def inlineScriptText : Node → Option String
  | Node.inlineScript t => some t
  | _ => none

def isInlineCode (n : Node) : Bool :=
  match n with
  | Node.styleBlock _ => true
  | Node.inlineScript _ => true
  | _ => false

/-- The fixed README template (app.js lines 408-421). -/
def readmeFor (url : String) : String :=
  "# Website Project (generated)\nThis project was generated from " ++ url ++
  "\nOpen in VS Code to inspect & edit:\n- index.html\n- css/\n- js/\n- images/\n- fonts/\n- audit/report.md\n\nNotes:\n- Some assets may not have been fetched due to cross-origin restrictions.\n- Review audit/report.md for suggested fixes.\n"

/-- The `totalAssets` count of the heuristic scan (app.js line 149): the external
asset count reported by the audit. -/
def totalAssets (m : Meta) : Nat :=
  m.cssFiles.length + m.jsFiles.length + m.images.length + m.fonts.length

/-- The value `processSite` resolves to on success. -/
structure RunResult where
  doc : Doc
  trace : List Call
  writes : List (String × String)
  meta : Meta
  zipName : String
deriving DecidableEq, Repr

/-- The pipeline context after inline extraction: run state, document,
the two combined inline-code buffers, and the inline block counts. -/
structure Ctx where
  st : St
  doc : Doc
  combinedCSS : String
  combinedJS : String
  inlineCssBlocks : Nat
  inlineJsBlocks : Nat
deriving DecidableEq, Repr

/-- Inline extraction and synthetic-reference injection (app.js lines
241-273): concatenate and remove inline style/script blocks, store the
combined files, and append the synthetic `<link>`/`<script>` elements. -/
def extractPhase (url : String) (doc0 : Doc) : Ctx :=
  let styleTexts := (doc0.head ++ doc0.body).filterMap styleText
  let combinedCSS := String.join (styleTexts.map (fun t => t ++ "\n\n"))
  let scriptTexts := (doc0.head ++ doc0.body).filterMap inlineScriptText
  let combinedJS := String.join (scriptTexts.map (fun t => t ++ "\n\n"))
  let doc1 : Doc := { head := doc0.head.filter (fun n => ¬ isInlineCode n),
                      body := doc0.body.filter (fun n => ¬ isInlineCode n) }
  let s0 : St := { trace := [Call.text url] }
  let s1 := if sTrim combinedCSS ≠ "" then
              { s0 with writes := s0.writes ++ [("website/css/inline-styles.css", combinedCSS)] }
            else s0
  let doc2 := if sTrim combinedCSS ≠ "" then
                { doc1 with head := doc1.head ++ [Node.linkStylesheet "css/inline-styles.css"] }
              else doc1
  let s2 := if sTrim combinedJS ≠ "" then
              { s1 with writes := s1.writes ++ [("website/js/inline-scripts.js", combinedJS)] }
            else s1
  let doc3 := if sTrim combinedJS ≠ "" then
                { doc2 with body := doc2.body ++ [Node.scriptSrc "js/inline-scripts.js"] }
              else doc2
  { st := s2, doc := doc3, combinedCSS := combinedCSS, combinedJS := combinedJS,
    inlineCssBlocks := styleTexts.length, inlineJsBlocks := scriptTexts.length }

/-- Lift a state-and-document transformer to the pipeline context. -/
def onStDoc (g : St → Doc → St × Doc) (c : Ctx) : Ctx :=
  let t := g c.st c.doc
  { c with st := t.1, doc := t.2 }

/-- Inline-CSS font chasing as a context phase (app.js lines 377-386). -/
def inlineFontsPhase (f : Fetcher) (url : String) (c : Ctx) : Ctx :=
  { c with st := inlineCssFonts f url (extractUrlsFromCss c.combinedCSS) c.st }

/-- Final assembly (app.js lines 388-452): serialize the rewritten
document, re-write the combined inline files, build `metaInfo`, write
the audit files and the README, and name the archive. -/
def finishPhase (serializeDoc : Doc → String) (auditMd auditJson : Doc → Meta → String)
    (url : String) (c : Ctx) : RunResult :=
  let finalHTML := "<!doctype html>\n" ++ serializeDoc c.doc
  let s9 := { c.st with writes := c.st.writes ++ [("website/index.html", finalHTML)] }
  let s10 := if sTrim c.combinedCSS ≠ "" then
               { s9 with writes := s9.writes ++ [("website/css/inline-styles.css", c.combinedCSS)] }
             else s9
  let s11 := if sTrim c.combinedJS ≠ "" then
               { s10 with writes := s10.writes ++ [("website/js/inline-scripts.js", c.combinedJS)] }
             else s10
  let meta : Meta := { cssFiles := s11.cssFiles, jsFiles := s11.jsFiles,
                       images := s11.images, fonts := s11.fonts,
                       inlineCssBlocks := c.inlineCssBlocks,
                       inlineJsBlocks := c.inlineJsBlocks,
                       inlineCssSize := sLength c.combinedCSS,
                       inlineJsSize := sLength c.combinedJS }
  let s12 := { s11 with writes := s11.writes ++
                 [("website/audit/report.md", auditMd c.doc meta),
                  ("website/audit/report.json", auditJson c.doc meta),
                  ("website/README.md", readmeFor url)] }
  { doc := c.doc, trace := s12.trace, writes := s12.writes,
    meta := meta, zipName := zipNameOf url }

/-- Model of `processSite` (app.js lines 211-452).  `parseHTML` stands for
`DOMParser.parseFromString`, `serializeDoc` for
`doc.documentElement.outerHTML`, and `auditMd`/`auditJson` for the
report text produced by `runHeuristicScan`/`JSON.stringify` — all
platform or out-of-core collaborators consuming the pipeline's output.
Returning `none` models `return null` (no archive produced).  The
phases run in source order: inline extraction, external CSS (with
nested `url()` chasing), external JS, images, favicon, preload fonts,
inline-CSS fonts, final assembly. -/
def processSite (f : Fetcher) (parseHTML : String → Doc)
    (serializeDoc : Doc → String) (auditMd auditJson : Doc → Meta → String)
    (url : String) : Option RunResult :=
  let htmlText := fetchText f url
  if htmlText = "" then none
  else
    some (finishPhase serializeDoc auditMd auditJson url
      (inlineFontsPhase f url
        (onStDoc (overDoc (preloadStep f url))
          (onStDoc (iconPhase f url)
            (onStDoc (overDoc (imgStep f url))
              (onStDoc (overDoc (jsStep f url))
                (onStDoc (overDoc (cssStep f url))
                  (extractPhase url (parseHTML htmlText)))))))))

/-- The successive contents written to one archive path, in program
order (the last one is the content the zip finally holds). -/
def writesTo (path : String) (ws : List (String × String)) : List String :=
  (ws.filter (fun w => w.1 = path)).map (fun w => w.2)

/-! ## Claim theorems -/

/-- C1, counterexample.  The claim says the injected fetcher is invoked
exactly once per distinct `originUrl`.  In a run over a document whose
two `<img>` elements share the same `src`, the blob fetcher is invoked
twice on the single origin URL `https://x.com/a.png` — the pipeline
performs no deduplication. -/
theorem c1_counterexample :
    (processSite ⟨fun _ => some "<p>", fun _ => some "B"⟩
        (fun _ => ⟨[], [Node.img "a.png", Node.img "a.png"]⟩)
        (fun _ => "") (fun _ _ => "") (fun _ _ => "") "https://x.com/").map
      (fun r => r.trace.count (Call.blob "https://x.com/a.png")) = some 2 := by
  decide

/-- C1, amended: the injected fetcher is invoked exactly once per
discovered reference occurrence — so k references sharing one
`originUrl` produce k fetches, not one.  For any fetcher whose root
fetch succeeds with non-empty text, a document with two `<img>`
elements carrying the same `src` yields a transport trace with one
blob call per occurrence (plus the root text fetch and the fallback
favicon probe), regardless of whether the blob fetches succeed. -/
theorem c1_theorem (f : Fetcher) (ser : Doc → String) (a1 a2 : Doc → Meta → String)
    (u a html : String) (hroot : f.text u = some html) (hne : html ≠ "") :
    (processSite f (fun _ => ⟨[], [Node.img a, Node.img a]⟩) ser a1 a2 u).map
        RunResult.trace =
      some [Call.text u, Call.blob (resolveUrl u a), Call.blob (resolveUrl u a),
            Call.blob (resolveUrl u "/favicon.ico")] := by
  have hft : fetchText f u = html := by simp [fetchText, hroot]
  simp only [processSite, hft, if_neg hne]
  rw [show extractPhase u (⟨[], [Node.img a, Node.img a]⟩ : Doc) =
      ⟨⟨[Call.text u], [], [], [], [], []⟩, ⟨[], [Node.img a, Node.img a]⟩, "", "", 0, 0⟩ from rfl]
  rw [show onStDoc (overDoc (cssStep f u))
      (⟨⟨[Call.text u], [], [], [], [], []⟩, ⟨[], [Node.img a, Node.img a]⟩, "", "", 0, 0⟩ : Ctx) =
      ⟨⟨[Call.text u], [], [], [], [], []⟩, ⟨[], [Node.img a, Node.img a]⟩, "", "", 0, 0⟩ from rfl]
  rw [show onStDoc (overDoc (jsStep f u))
      (⟨⟨[Call.text u], [], [], [], [], []⟩, ⟨[], [Node.img a, Node.img a]⟩, "", "", 0, 0⟩ : Ctx) =
      ⟨⟨[Call.text u], [], [], [], [], []⟩, ⟨[], [Node.img a, Node.img a]⟩, "", "", 0, 0⟩ from rfl]
  obtain ⟨w, i, X1, X2, himg⟩ : ∃ w i X1 X2, onStDoc (overDoc (imgStep f u))
      (⟨⟨[Call.text u], [], [], [], [], []⟩, ⟨[], [Node.img a, Node.img a]⟩, "", "", 0, 0⟩ : Ctx) =
      ⟨⟨[Call.text u, Call.blob (resolveUrl u a), Call.blob (resolveUrl u a)], w, [], [], i, []⟩,
       ⟨[], [Node.img X1, Node.img X2]⟩, "", "", 0, 0⟩ := by
    rcases hb : f.blob (resolveUrl u a) with _ | b
    · refine ⟨[], [(resolveUrl u a, none), (resolveUrl u a, none)], a, a, ?_⟩
      simp only [onStDoc, overDoc, mapAccum, imgStep, fetchBlob, hb, List.nil_append,
                 List.cons_append, List.append_nil]
    · refine ⟨[("website/images/" ++ fileNameFromUrl (resolveUrl u a), b),
               ("website/images/" ++ fileNameFromUrl (resolveUrl u a), b)],
              [(resolveUrl u a, some (fileNameFromUrl (resolveUrl u a))),
               (resolveUrl u a, some (fileNameFromUrl (resolveUrl u a)))],
              "images/" ++ fileNameFromUrl (resolveUrl u a),
              "images/" ++ fileNameFromUrl (resolveUrl u a), ?_⟩
      simp only [onStDoc, overDoc, mapAccum, imgStep, fetchBlob, hb, List.nil_append,
                 List.cons_append, List.append_nil]
  rw [himg]
  obtain ⟨w2, hicon⟩ : ∃ w2, onStDoc (iconPhase f u)
      (⟨⟨[Call.text u, Call.blob (resolveUrl u a), Call.blob (resolveUrl u a)], w, [], [], i, []⟩,
        ⟨[], [Node.img X1, Node.img X2]⟩, "", "", 0, 0⟩ : Ctx) =
      ⟨⟨[Call.text u, Call.blob (resolveUrl u a), Call.blob (resolveUrl u a),
         Call.blob (resolveUrl u "/favicon.ico")], w2, [], [], i, []⟩,
       ⟨[], [Node.img X1, Node.img X2]⟩, "", "", 0, 0⟩ := by
    rcases hfav : f.blob (resolveUrl u "/favicon.ico") with _ | fb
    · refine ⟨w, ?_⟩
      simp only [onStDoc, iconPhase, findIcon, fetchBlob, hfav, List.nil_append,
                 List.cons_append, List.append_nil]
    · refine ⟨w ++ [("website/favicon.ico", fb)], ?_⟩
      simp only [onStDoc, iconPhase, findIcon, fetchBlob, hfav, List.nil_append,
                 List.cons_append, List.append_nil]
  rw [hicon]
  rw [show onStDoc (overDoc (preloadStep f u))
      (⟨⟨[Call.text u, Call.blob (resolveUrl u a), Call.blob (resolveUrl u a),
          Call.blob (resolveUrl u "/favicon.ico")], w2, [], [], i, []⟩,
        ⟨[], [Node.img X1, Node.img X2]⟩, "", "", 0, 0⟩ : Ctx) =
      ⟨⟨[Call.text u, Call.blob (resolveUrl u a), Call.blob (resolveUrl u a),
         Call.blob (resolveUrl u "/favicon.ico")], w2, [], [], i, []⟩,
       ⟨[], [Node.img X1, Node.img X2]⟩, "", "", 0, 0⟩ from rfl]
  rw [show inlineFontsPhase f u
      (⟨⟨[Call.text u, Call.blob (resolveUrl u a), Call.blob (resolveUrl u a),
          Call.blob (resolveUrl u "/favicon.ico")], w2, [], [], i, []⟩,
        ⟨[], [Node.img X1, Node.img X2]⟩, "", "", 0, 0⟩ : Ctx) =
      ⟨⟨[Call.text u, Call.blob (resolveUrl u a), Call.blob (resolveUrl u a),
         Call.blob (resolveUrl u "/favicon.ico")], w2, [], [], i, []⟩,
       ⟨[], [Node.img X1, Node.img X2]⟩, "", "", 0, 0⟩ from rfl]
  rfl

/-- C1, witness: the amended theorem applied at a concrete fetcher,
document and URL. -/
theorem c1_witness :
    (processSite ⟨fun _ => some "<p>", fun _ => some "B"⟩
        (fun _ => ⟨[], [Node.img "a.png", Node.img "a.png"]⟩)
        (fun _ => "") (fun _ _ => "") (fun _ _ => "") "https://x.com/").map
        RunResult.trace =
      some [Call.text "https://x.com/", Call.blob "https://x.com/a.png",
            Call.blob "https://x.com/a.png", Call.blob "https://x.com/favicon.ico"] :=
  c1_theorem ⟨fun _ => some "<p>", fun _ => some "B"⟩ (fun _ => "") (fun _ _ => "")
    (fun _ _ => "") "https://x.com/" "a.png" "<p>" rfl (by decide)

/-- C4, counterexample.  The claim says
`domainFromUrl "https://Example.com:8080/x"` returns `"Example.com:8080"`
and the archive is named `"Example.com-8080.zip"`.  In fact `hostname`
is lowercased and excludes the port, so neither holds. -/
theorem c4_counterexample :
    domainFromUrl "https://Example.com:8080/x" ≠ "Example.com:8080" ∧
    zipNameOf "https://Example.com:8080/x" ≠ "Example.com-8080.zip" := by
  decide

/-- C4, amended: `domainFromUrl` returns the URL hostname — lowercased
and without the port — so `"https://Example.com:8080/x"` yields
`"example.com"` and archive name `"example.com.zip"`; the sanitization
itself does replace every run of characters from the reserved set with
a single hyphen, as the examples show. -/
theorem c4_theorem :
    domainFromUrl "https://Example.com:8080/x" = "example.com" ∧
    zipNameOf "https://Example.com:8080/x" = "example.com.zip" ∧
    sanitizeDomain "Example.com:8080" = "Example.com-8080" ∧
    sanitizeDomain "a: b//c" = "a-b-c" ∧
    zipNameOf "https://x.com/" = "x.com.zip" := by
  decide

/-- C5, counterexample.  The claim says `fileNameFromUrl` defaults to
`"asset"` when no non-empty path segment exists.  For
`"https://x.com/"` the code instead falls back to `"index"` and then
the extension-guess appends the pathname tail, producing `"index./"`,
not `"asset"`. -/
theorem c5_counterexample :
    fileNameFromUrl "https://x.com/" ≠ "asset" ∧
    fileNameFromUrl "https://x.com/" = "index./" := by
  decide

/-- C5, amended: `fileNameFromUrl` takes the final non-empty path
segment, drops a trailing query, and appends a (≤ 5 characters)
extension guessed from the pathname when the segment has no dot — the
two claimed examples hold — but when no non-empty segment exists it
defaults to `"index"` (to which the extension guess still applies,
giving `"index./"` for a root path); `"asset"` is produced only when
URL parsing fails. -/
theorem c5_theorem :
    fileNameFromUrl "https://x.com/assets/app.min.js?v=2" = "app.min.js" ∧
    fileNameFromUrl "https://x.com/path/noext" = "noext" ∧
    fileNameFromUrl "https://x.com/file.jpg" = "file.jpg" ∧
    fileNameFromUrl "https://x.com/" = "index./" ∧
    fileNameFromUrl "not a url" = "asset" := by
  decide

/-- C2, counterexample.  The claim says a reference whose fetch failed
keeps its original attribute value.  With a fetcher that fails on every
URL but the page itself, the stylesheet reference `style.css` is still
rewritten to the local path `css/style.css` (and an empty stylesheet
file is written), even though its fetch returned a failure. -/
theorem c2_counterexample :
    ∃ r, processSite ⟨fun s => if s = "https://x.com/" then some "<p>" else none, fun _ => none⟩
        (fun _ => ⟨[Node.linkStylesheet "style.css"], [Node.img "a.png"]⟩)
        (fun _ => "") (fun _ _ => "") (fun _ _ => "") "https://x.com/" = some r ∧
      (⟨fun s => if s = "https://x.com/" then some "<p>" else none,
        fun _ => none⟩ : Fetcher).text "https://x.com/style.css" = none ∧
      r.doc.head = [Node.linkStylesheet "css/style.css"] ∧
      r.doc.body = [Node.img "a.png"] ∧
      ("website/css/style.css", "") ∈ r.writes := by
  refine ⟨_, rfl, by decide, by decide, by decide, by decide⟩

/-- C2, amended: image references are rewritten to `images/<localName>`
only when their blob fetch succeeds and keep their original attribute
on failure, but stylesheet and script references are always rewritten
to `css/<localName>` / `js/<localName>` — and their (possibly empty)
fetched text is always written — regardless of fetch success.  Stated
for any fetcher whose root fetch succeeds and whose stylesheet text
yields no nested `url()` tokens. -/
theorem c2_theorem (f : Fetcher) (ser : Doc → String) (a1 a2 : Doc → Meta → String)
    (u h sc a html : String) (hroot : f.text u = some html) (hne : html ≠ "")
    (hcss : extractUrlsFromCss (fetchText f (resolveUrl u h)) = []) :
    (processSite f (fun _ => ⟨[Node.linkStylesheet h], [Node.scriptSrc sc, Node.img a]⟩)
        ser a1 a2 u).map (fun r => (r.doc, r.writes.take 2)) =
      some (⟨[Node.linkStylesheet ("css/" ++ jsOr (fileNameFromUrl (resolveUrl u h)) "style.css")],
             [Node.scriptSrc ("js/" ++ jsOr (fileNameFromUrl (resolveUrl u sc)) "script.js"),
              Node.img (match f.blob (resolveUrl u a) with
                        | some _ => "images/" ++ fileNameFromUrl (resolveUrl u a)
                        | none => a)]⟩,
            [("website/css/" ++ jsOr (fileNameFromUrl (resolveUrl u h)) "style.css",
              fetchText f (resolveUrl u h)),
             ("website/js/" ++ jsOr (fileNameFromUrl (resolveUrl u sc)) "script.js",
              fetchText f (resolveUrl u sc))]) := by
  have hft : fetchText f u = html := by simp [fetchText, hroot]
  simp only [processSite, hft, if_neg hne]
  rw [show extractPhase u (⟨[Node.linkStylesheet h], [Node.scriptSrc sc, Node.img a]⟩ : Doc) =
      ⟨⟨[Call.text u], [], [], [], [], []⟩,
       ⟨[Node.linkStylesheet h], [Node.scriptSrc sc, Node.img a]⟩, "", "", 0, 0⟩ from rfl]
  have hcssPh : onStDoc (overDoc (cssStep f u))
      (⟨⟨[Call.text u], [], [], [], [], []⟩,
        ⟨[Node.linkStylesheet h], [Node.scriptSrc sc, Node.img a]⟩, "", "", 0, 0⟩ : Ctx) =
      ⟨⟨[Call.text u, Call.text (resolveUrl u h)],
        [("website/css/" ++ jsOr (fileNameFromUrl (resolveUrl u h)) "style.css",
          fetchText f (resolveUrl u h))],
        [(resolveUrl u h, jsOr (fileNameFromUrl (resolveUrl u h)) "style.css")], [], [], []⟩,
       ⟨[Node.linkStylesheet ("css/" ++ jsOr (fileNameFromUrl (resolveUrl u h)) "style.css")],
        [Node.scriptSrc sc, Node.img a]⟩, "", "", 0, 0⟩ := by
    simp only [onStDoc, overDoc, mapAccum, cssStep, hcss, cssAssets, List.nil_append,
               List.cons_append, List.append_nil]
  rw [hcssPh]
  rw [show onStDoc (overDoc (jsStep f u))
      (⟨⟨[Call.text u, Call.text (resolveUrl u h)],
         [("website/css/" ++ jsOr (fileNameFromUrl (resolveUrl u h)) "style.css",
           fetchText f (resolveUrl u h))],
         [(resolveUrl u h, jsOr (fileNameFromUrl (resolveUrl u h)) "style.css")], [], [], []⟩,
        ⟨[Node.linkStylesheet ("css/" ++ jsOr (fileNameFromUrl (resolveUrl u h)) "style.css")],
         [Node.scriptSrc sc, Node.img a]⟩, "", "", 0, 0⟩ : Ctx) =
      ⟨⟨[Call.text u, Call.text (resolveUrl u h), Call.text (resolveUrl u sc)],
        [("website/css/" ++ jsOr (fileNameFromUrl (resolveUrl u h)) "style.css",
          fetchText f (resolveUrl u h)),
         ("website/js/" ++ jsOr (fileNameFromUrl (resolveUrl u sc)) "script.js",
          fetchText f (resolveUrl u sc))],
        [(resolveUrl u h, jsOr (fileNameFromUrl (resolveUrl u h)) "style.css")],
        [(resolveUrl u sc, jsOr (fileNameFromUrl (resolveUrl u sc)) "script.js")], [], []⟩,
       ⟨[Node.linkStylesheet ("css/" ++ jsOr (fileNameFromUrl (resolveUrl u h)) "style.css")],
        [Node.scriptSrc ("js/" ++ jsOr (fileNameFromUrl (resolveUrl u sc)) "script.js"),
         Node.img a]⟩, "", "", 0, 0⟩ from rfl]
  have himg : onStDoc (overDoc (imgStep f u))
      (⟨⟨[Call.text u, Call.text (resolveUrl u h), Call.text (resolveUrl u sc)],
         [("website/css/" ++ jsOr (fileNameFromUrl (resolveUrl u h)) "style.css",
           fetchText f (resolveUrl u h)),
          ("website/js/" ++ jsOr (fileNameFromUrl (resolveUrl u sc)) "script.js",
           fetchText f (resolveUrl u sc))],
         [(resolveUrl u h, jsOr (fileNameFromUrl (resolveUrl u h)) "style.css")],
         [(resolveUrl u sc, jsOr (fileNameFromUrl (resolveUrl u sc)) "script.js")], [], []⟩,
        ⟨[Node.linkStylesheet ("css/" ++ jsOr (fileNameFromUrl (resolveUrl u h)) "style.css")],
         [Node.scriptSrc ("js/" ++ jsOr (fileNameFromUrl (resolveUrl u sc)) "script.js"),
          Node.img a]⟩, "", "", 0, 0⟩ : Ctx) =
      ⟨⟨[Call.text u, Call.text (resolveUrl u h), Call.text (resolveUrl u sc),
         Call.blob (resolveUrl u a)],
        [("website/css/" ++ jsOr (fileNameFromUrl (resolveUrl u h)) "style.css",
          fetchText f (resolveUrl u h)),
         ("website/js/" ++ jsOr (fileNameFromUrl (resolveUrl u sc)) "script.js",
          fetchText f (resolveUrl u sc))] ++
          (match f.blob (resolveUrl u a) with
           | some b => [("website/images/" ++ fileNameFromUrl (resolveUrl u a), b)]
           | none => []),
        [(resolveUrl u h, jsOr (fileNameFromUrl (resolveUrl u h)) "style.css")],
        [(resolveUrl u sc, jsOr (fileNameFromUrl (resolveUrl u sc)) "script.js")],
        [(resolveUrl u a,
          match f.blob (resolveUrl u a) with
          | some _ => some (fileNameFromUrl (resolveUrl u a))
          | none => none)], []⟩,
       ⟨[Node.linkStylesheet ("css/" ++ jsOr (fileNameFromUrl (resolveUrl u h)) "style.css")],
        [Node.scriptSrc ("js/" ++ jsOr (fileNameFromUrl (resolveUrl u sc)) "script.js"),
         Node.img (match f.blob (resolveUrl u a) with
                   | some _ => "images/" ++ fileNameFromUrl (resolveUrl u a)
                   | none => a)]⟩, "", "", 0, 0⟩ := by
    rcases hb : f.blob (resolveUrl u a) with _ | b <;>
    simp only [onStDoc, overDoc, mapAccum, imgStep, fetchBlob, hb, List.nil_append,
               List.cons_append, List.append_nil]
  rw [himg]
  have hicon : ∀ (s : St),
      iconPhase f u s
        (⟨[Node.linkStylesheet ("css/" ++ jsOr (fileNameFromUrl (resolveUrl u h)) "style.css")],
          [Node.scriptSrc ("js/" ++ jsOr (fileNameFromUrl (resolveUrl u sc)) "script.js"),
           Node.img (match f.blob (resolveUrl u a) with
                     | some _ => "images/" ++ fileNameFromUrl (resolveUrl u a)
                     | none => a)]⟩ : Doc) =
      ({ s with trace := s.trace ++ [Call.blob (resolveUrl u "/favicon.ico")],
                writes := s.writes ++
                  (match f.blob (resolveUrl u "/favicon.ico") with
                   | some b => [("website/favicon.ico", b)]
                   | none => []) },
       ⟨[Node.linkStylesheet ("css/" ++ jsOr (fileNameFromUrl (resolveUrl u h)) "style.css")],
        [Node.scriptSrc ("js/" ++ jsOr (fileNameFromUrl (resolveUrl u sc)) "script.js"),
         Node.img (match f.blob (resolveUrl u a) with
                   | some _ => "images/" ++ fileNameFromUrl (resolveUrl u a)
                   | none => a)]⟩) := by
    intro s
    rcases hfav : f.blob (resolveUrl u "/favicon.ico") with _ | fb <;>
    simp only [iconPhase, findIcon, fetchBlob, hfav, List.nil_append,
               List.cons_append, List.append_nil]
  simp only [onStDoc, hicon]
  rfl

/-- C2, witness: the amended theorem applied at a fetcher failing every
asset fetch — the stylesheet and script are rewritten anyway with empty
files written, while the image keeps its original `src`. -/
theorem c2_witness :
    (processSite ⟨fun s => if s = "https://x.com/" then some "<p>" else none, fun _ => none⟩
        (fun _ => ⟨[Node.linkStylesheet "style.css"],
                   [Node.scriptSrc "app.js", Node.img "a.png"]⟩)
        (fun _ => "") (fun _ _ => "") (fun _ _ => "") "https://x.com/").map
      (fun r => (r.doc, r.writes.take 2)) =
      some (⟨[Node.linkStylesheet "css/style.css"],
             [Node.scriptSrc "js/app.js", Node.img "a.png"]⟩,
            [("website/css/style.css", ""), ("website/js/app.js", "")]) :=
  c2_theorem ⟨fun s => if s = "https://x.com/" then some "<p>" else none, fun _ => none⟩
    (fun _ => "") (fun _ _ => "") (fun _ _ => "") "https://x.com/" "style.css" "app.js"
    "a.png" "<p>" rfl (by decide) (by decide)

/-- C3, counterexample.  The claim says a `url(...)` token with an
image extension found in the combined inline-style buffer is fetched
as a binary image into the images folder.  In a run whose only style
source is an inline block containing `url(pic.png)`, no blob fetch of
the resolved image URL occurs and nothing is written under
`website/images/` — the inline-buffer loop has no image branch. -/
theorem c3_counterexample :
    (processSite ⟨fun s => if s = "https://x.com/" then some "<p>" else some "",
                  fun _ => some "B"⟩
        (fun _ => ⟨[Node.styleBlock "c{x:url(pic.png)}"], []⟩)
        (fun _ => "") (fun _ _ => "") (fun _ _ => "") "https://x.com/").map
      (fun r => (r.trace.count (Call.blob "https://x.com/pic.png"),
                 writesTo "website/images/pic.png" r.writes)) = some (0, []) := by
  decide

/-- C3, amended: `url(...)` tokens in a fetched stylesheet's text are
classified by extension after query-stripping — font extensions are
fetched as binary fonts into the fonts folder, image extensions as
binary images into the images folder, and any other extension is
silently skipped — but in the combined inline-style buffer only the
font rule is applied: image extensions there are silently skipped too.
The first run shows a fetched stylesheet with `x.woff2`, `y.png` and
`z.txt` tokens (font and image fetched, `z.txt` skipped); the second
shows an inline buffer with `fi.woff2` and `im.png` (font fetched,
image skipped). -/
theorem c3_theorem :
    ((processSite ⟨fun s => if s = "https://x.com/" then some "<p>"
                           else if s = "https://x.com/s.css" then
                             some "url(x.woff2) url(y.png) url(z.txt)"
                           else none,
                   fun _ => some "B"⟩
        (fun _ => ⟨[Node.linkStylesheet "s.css"], []⟩)
        (fun _ => "") (fun _ _ => "") (fun _ _ => "") "https://x.com/").map
      (fun r => (r.trace,
        r.writes.filter (fun w => sStartsWith w.1 "website/fonts/" ∨
                                  sStartsWith w.1 "website/images/"))) =
      some ([Call.text "https://x.com/", Call.text "https://x.com/s.css",
             Call.blob "https://x.com/x.woff2", Call.blob "https://x.com/y.png",
             Call.blob "https://x.com/favicon.ico"],
            [("website/fonts/x.woff2", "B"), ("website/images/y.png", "B")])) ∧
    ((processSite ⟨fun s => if s = "https://x.com/" then some "<p>" else some "",
                   fun _ => some "B"⟩
        (fun _ => ⟨[Node.styleBlock "q{a:url(fi.woff2);b:url(im.png)}"], []⟩)
        (fun _ => "") (fun _ _ => "") (fun _ _ => "") "https://x.com/").map
      (fun r => (r.trace,
        r.writes.filter (fun w => sStartsWith w.1 "website/fonts/" ∨
                                  sStartsWith w.1 "website/images/"))) =
      some ([Call.text "https://x.com/", Call.text "https://x.com/css/inline-styles.css",
             Call.blob "https://x.com/favicon.ico", Call.blob "https://x.com/fi.woff2"],
            [("website/fonts/fi.woff2", "B")])) := by
  constructor
  · decide
  · decide

/-- C8: the run returns no archive exactly when the root document text
is the empty-string failure value — per-asset fetch failures never abort the
pipeline (the equivalence holds for every fetcher, including ones that
fail every asset fetch), and a root fetch failure returns the failure
result with no archive produced. -/
theorem c8_theorem (f : Fetcher) (p : String → Doc) (ser : Doc → String)
    (a1 a2 : Doc → Meta → String) (u : String) :
    processSite f p ser a1 a2 u = none ↔ fetchText f u = "" := by
  by_cases h : fetchText f u = ""
  · simp [processSite, h]
  · simp [processSite, h]

/-- Helper: `cssAssets` depends on the fetcher only through its blob
channel. -/
theorem cssAssets_ext {f g : Fetcher} (hB : f.blob = g.blob) (b : String) :
    ∀ us s, cssAssets f b us s = cssAssets g b us s := by
  intro us
  induction us with
  | nil => intro s; rfl
  | cons x xs ih =>
    intro s
    simp only [cssAssets, fetchBlob, hB]
    exact ih _

/-- Helper: `inlineCssFonts` depends on the fetcher only through its
blob channel. -/
theorem inlineCssFonts_ext {f g : Fetcher} (hB : f.blob = g.blob) (u : String) :
    ∀ us s, inlineCssFonts f u us s = inlineCssFonts g u us s := by
  intro us
  induction us with
  | nil => intro s; rfl
  | cons x xs ih =>
    intro s
    simp only [inlineCssFonts, fetchBlob, hB]
    exact ih _

/-- Helper: the whole pipeline observes the injected transport only
through the `fetchText`/`fetchBlob` wrappers, so two fetchers with
identical wrapper behaviour produce identical runs. -/
theorem processSite_ext {f g : Fetcher} (hT : fetchText f = fetchText g)
    (hB : f.blob = g.blob) (p : String → Doc) (ser : Doc → String)
    (a1 a2 : Doc → Meta → String) (u : String) :
    processSite f p ser a1 a2 u = processSite g p ser a1 a2 u := by
  have hcssA := cssAssets_ext hB
  have hcss : cssStep f u = cssStep g u := by
    funext s n
    cases n <;> first | rfl | simp only [cssStep, hT, hcssA]
  have hjs : jsStep f u = jsStep g u := by
    funext s n
    cases n <;> first | rfl | simp only [jsStep, hT]
  have himg : imgStep f u = imgStep g u := by
    funext s n
    cases n <;> first | rfl | simp only [imgStep, fetchBlob, hB]
  have hpre : preloadStep f u = preloadStep g u := by
    funext s n
    cases n <;> first | rfl | simp only [preloadStep, fetchBlob, hB]
  have hicon : iconPhase f u = iconPhase g u := by
    funext s d
    simp only [iconPhase, fetchBlob, hB]
  have hinl := inlineCssFonts_ext hB u
  simp only [processSite, inlineFontsPhase, hT, hcss, hjs, himg, hpre, hicon, hinl]

/-- C10: `fetchText` encodes every failure as the empty string, so a
root document fetched successfully with an empty body is
indistinguishable from a failed root fetch — the run returns the
no-HTML failure and no archive is produced; likewise a stylesheet or
script whose remote content is genuinely empty (`some ""`) behaves
identically to a fetch failure (`none`) in every respect, for any run. -/
theorem c10_theorem :
    (∀ (f : Fetcher) (p : String → Doc) (ser : Doc → String)
        (a1 a2 : Doc → Meta → String) (u : String),
        f.text u = some "" → processSite f p ser a1 a2 u = none) ∧
    (∀ (f g : Fetcher) (p : String → Doc) (ser : Doc → String)
        (a1 a2 : Doc → Meta → String) (u s : String),
        f.text s = some "" → g.text s = none →
        (∀ x, x ≠ s → f.text x = g.text x) → f.blob = g.blob →
        processSite f p ser a1 a2 u = processSite g p ser a1 a2 u) := by
  constructor
  · intro f p ser a1 a2 u h
    have he : fetchText f u = "" := by simp [fetchText, h]
    simp [processSite, he]
  · intro f g p ser a1 a2 u s h1 h2 h3 hB
    have hT : fetchText f = fetchText g := by
      funext x
      by_cases hx : x = s
      · subst hx; simp [fetchText, h1, h2]
      · simp [fetchText, h3 x hx]
    exact processSite_ext hT hB p ser a1 a2 u

/-- C10, witness: both parts applied at concrete fetchers — an
empty-body root fetch yields no archive, and two concrete runs whose
stylesheet fetch returns `some ""` respectively `none` coincide. -/
theorem c10_witness :
    processSite ⟨fun _ => some "", fun _ => none⟩ (fun _ => ⟨[], []⟩)
        (fun _ => "") (fun _ _ => "") (fun _ _ => "") "https://x.com/" = none ∧
    processSite ⟨fun s => if s = "https://x.com/s.css" then some "" else some "<p>",
                 fun _ => none⟩
        (fun _ => ⟨[Node.linkStylesheet "s.css"], []⟩)
        (fun _ => "") (fun _ _ => "") (fun _ _ => "") "https://x.com/" =
      processSite ⟨fun s => if s = "https://x.com/s.css" then none else some "<p>",
                   fun _ => none⟩
        (fun _ => ⟨[Node.linkStylesheet "s.css"], []⟩)
        (fun _ => "") (fun _ _ => "") (fun _ _ => "") "https://x.com/" :=
  ⟨c10_theorem.1 _ _ _ _ _ _ rfl,
   c10_theorem.2 _ _ _ _ _ _ "https://x.com/" "https://x.com/s.css" (by decide) (by decide)
     (fun x hx => by simp [hx]) rfl⟩

/-- Helper: `takeWhile` consumes exactly the satisfying block before a
failing character. -/
theorem takeWhile_append_stop {p : Char → Bool} :
    ∀ (l : List Char) (c : Char) (r : List Char), (∀ x ∈ l, p x = true) → p c = false →
      List.takeWhile p (l ++ c :: r) = l := by
  intro l
  induction l with
  | nil =>
    intro c r _ hc
    simp [List.takeWhile, hc]
  | cons a t ih =>
    intro c r hl hc
    have ha : p a = true := hl a (by simp)
    simp only [List.cons_append, List.takeWhile, ha, List.append_eq]
    rw [ih c r (fun x hx => hl x (by simp [hx])) hc]

/-- Helper: the exec loop yields nothing on exhausted input. -/
theorem extractLoop_nil (k : Nat) : extractLoop k [] = [] := by
  cases k <;> rfl

/-- Helper: the exec loop starting right at a full token emits its
capture. -/
theorem extractLoop_url (k : Nat) (body : List Char) (t : List Char)
    (h : matchBody body = some (t, [])) :
    extractLoop (k + 1) ('u' :: 'r' :: 'l' :: '(' :: body) = [String.mk t] := by
  simp only [extractLoop, List.take, List.drop, h, extractLoop_nil, and_self, if_true]

/-- Helper: a body-class character is not a quote. -/
theorem isUrlBodyChar_quote_false {c : Char} (h : isUrlBodyChar c = true) :
    isQuote c = false := by
  simp only [isUrlBodyChar, Bool.and_eq_true, decide_eq_true_eq] at h
  simp [isQuote, h.1, h.2.1]

/-- Helper: an unquoted body followed by the closing parenthesis
matches with the body as capture. -/
theorem finishRun_noquote (t : List Char) (hne : t ≠ [])
    (hall : ∀ c ∈ t, isUrlBodyChar c = true) :
    finishRun (t ++ [')']) = some (t, []) := by
  have hrun : List.takeWhile isUrlBodyChar (t ++ [')']) = t :=
    takeWhile_append_stop t ')' [] hall (by decide)
  have hdrop : (t ++ [')']).drop t.length = [')'] := List.drop_left t [')']
  simp only [finishRun, hrun, hdrop, List.isEmpty_eq_true, hne, if_false]

/-- Helper: a body followed by a closing quote and parenthesis matches
with the body as capture. -/
theorem finishRun_quote (q : Char) (hq : isQuote q = true) (t : List Char) (hne : t ≠ [])
    (hall : ∀ c ∈ t, isUrlBodyChar c = true) :
    finishRun (t ++ [q, ')']) = some (t, []) := by
  have hqb : isUrlBodyChar q = false := by
    simp only [isQuote, Bool.or_eq_true, decide_eq_true_eq] at hq
    rcases hq with rfl | rfl <;> decide
  have hrun : List.takeWhile isUrlBodyChar (t ++ [q, ')']) = t :=
    takeWhile_append_stop t q [')'] hall hqb
  have hdrop : (t ++ [q, ')']).drop t.length = [q, ')'] := List.drop_left t [q, ')']
  simp only [isQuote, Bool.or_eq_true, decide_eq_true_eq] at hq
  rcases hq with rfl | rfl <;>
  simp only [finishRun, hrun, hdrop, List.isEmpty_eq_true, hne, if_false] <;>
  rfl

/-- Helper: recognition of an unquoted token body. -/
theorem matchBody_token (t : List Char) (hne : t ≠ [])
    (hall : ∀ c ∈ t, isUrlBodyChar c = true) :
    matchBody (t ++ [')']) = some (t, []) := by
  rcases ht : t with _ | ⟨c0, t0⟩
  · exact absurd ht hne
  · have hc0 : isUrlBodyChar c0 = true := by
      apply hall; rw [ht]; simp
    have hq : isQuote c0 = false := isUrlBodyChar_quote_false hc0
    show matchBody (c0 :: (t0 ++ [')'])) = some (c0 :: t0, [])
    rw [show matchBody (c0 :: (t0 ++ [')'])) =
        if isQuote c0 = true then finishRun (t0 ++ [')'])
        else finishRun (c0 :: (t0 ++ [')'])) from rfl]
    rw [hq]
    simp only [Bool.false_eq_true, if_false]
    exact finishRun_noquote (c0 :: t0) (by simp) (ht ▸ hall)

/-- Helper: recognition of a quoted token body. -/
theorem matchBody_token_quoted (q : Char) (hq : isQuote q = true) (t : List Char)
    (hne : t ≠ []) (hall : ∀ c ∈ t, isUrlBodyChar c = true) :
    matchBody (q :: (t ++ [q, ')'])) = some (t, []) := by
  rw [show matchBody (q :: (t ++ [q, ')'])) =
      if isQuote q = true then finishRun (t ++ [q, ')'])
      else finishRun (q :: (t ++ [q, ')'])) from rfl]
  rw [hq]
  simp only [if_true]
  exact finishRun_quote q hq t hne hall

/-- C6: the CSS `url()` extractor recognizes every token of the form
`url(` + optional single or double quote + a non-empty run of
characters excluding quotes and the closing parenthesis + optional
matching quote + `)` — tolerating absent quotes — and returns the
inner strings in textual order, as the claimed example shows. -/
theorem c6_theorem :
    (∀ s : String, s ≠ "" → (∀ c ∈ s.toList, isUrlBodyChar c = true) →
       extractUrlsFromCss ("url(" ++ s ++ ")") = [s] ∧
       extractUrlsFromCss ("url('" ++ s ++ "')") = [s] ∧
       extractUrlsFromCss ("url(\"" ++ s ++ "\")") = [s]) ∧
    extractUrlsFromCss "background:url('a.png') , url(b.woff2)" = ["a.png", "b.woff2"] := by
  constructor
  · intro s hne hall
    have hnil : s.toList ≠ [] := by
      intro hx
      apply hne
      rw [show s = String.mk s.toList from rfl, hx]
    have hmk : String.mk s.toList = s := rfl
    refine ⟨?_, ?_, ?_⟩
    · show extractLoop ('u' :: 'r' :: 'l' :: '(' :: (s.toList ++ [')'])).length
          ('u' :: 'r' :: 'l' :: '(' :: (s.toList ++ [')'])) = [s]
      simp only [List.length_cons]
      rw [extractLoop_url _ _ _ (matchBody_token s.toList hnil hall), hmk]
    · show extractLoop
          ('u' :: 'r' :: 'l' :: '(' :: '\'' :: (s.toList ++ ['\'', ')'])).length
          ('u' :: 'r' :: 'l' :: '(' :: '\'' :: (s.toList ++ ['\'', ')'])) = [s]
      simp only [List.length_cons]
      rw [extractLoop_url _ _ _ (matchBody_token_quoted '\'' (by decide) s.toList hnil hall),
          hmk]
    · show extractLoop
          ('u' :: 'r' :: 'l' :: '(' :: '"' :: (s.toList ++ ['"', ')'])).length
          ('u' :: 'r' :: 'l' :: '(' :: '"' :: (s.toList ++ ['"', ')'])) = [s]
      simp only [List.length_cons]
      rw [extractLoop_url _ _ _ (matchBody_token_quoted '"' (by decide) s.toList hnil hall),
          hmk]
  · decide

/-- C6, witness: the general recognition statement applied at the
concrete token `x.png`. -/
theorem c6_witness :
    extractUrlsFromCss ("url(" ++ "x.png" ++ ")") = ["x.png"] ∧
    extractUrlsFromCss ("url('" ++ "x.png" ++ "')") = ["x.png"] ∧
    extractUrlsFromCss ("url(\"" ++ "x.png" ++ "\")") = ["x.png"] :=
  c6_theorem.1 "x.png" (by decide) (by decide)

/-- C7: every reference discovered directly from the document —
stylesheet, script, image, icon, preload font — is fetched at the URL
resolved against the page base `u`, while the `url()` token found
inside the fetched stylesheet is fetched at the URL resolved against
that stylesheet's own absolute URL `resolveUrl u h`, not the page URL.
The transport trace exhibits all seven resolutions in program order,
for any fetcher and any blob outcomes. -/
theorem c7_theorem (f : Fetcher) (ser : Doc → String) (a1 a2 : Doc → Meta → String)
    (u h pf ic sc im tok css html : String)
    (hroot : f.text u = some html) (hne : html ≠ "")
    (hcssf : f.text (resolveUrl u h) = some css)
    (htok : extractUrlsFromCss css = [tok])
    (hfont : fontExts.contains (extOf (resolveUrl (resolveUrl u h) tok)) = true) :
    (processSite f
        (fun _ => ⟨[Node.linkStylesheet h, Node.linkPreloadFont pf, Node.linkIcon ic],
                   [Node.scriptSrc sc, Node.img im]⟩) ser a1 a2 u).map RunResult.trace =
      some [Call.text u, Call.text (resolveUrl u h),
            Call.blob (resolveUrl (resolveUrl u h) tok),
            Call.text (resolveUrl u sc), Call.blob (resolveUrl u im),
            Call.blob (resolveUrl u ic), Call.blob (resolveUrl u pf)] := by
  have hft : fetchText f u = html := by simp [fetchText, hroot]
  have hftc : fetchText f (resolveUrl u h) = css := by simp [fetchText, hcssf]
  simp only [processSite, hft, if_neg hne]
  rw [show extractPhase u
      (⟨[Node.linkStylesheet h, Node.linkPreloadFont pf, Node.linkIcon ic],
        [Node.scriptSrc sc, Node.img im]⟩ : Doc) =
      ⟨⟨[Call.text u], [], [], [], [], []⟩,
       ⟨[Node.linkStylesheet h, Node.linkPreloadFont pf, Node.linkIcon ic],
        [Node.scriptSrc sc, Node.img im]⟩, "", "", 0, 0⟩ from rfl]
  obtain ⟨w1, ft1, X1, hcssPh⟩ : ∃ w1 ft1 X1, onStDoc (overDoc (cssStep f u))
      (⟨⟨[Call.text u], [], [], [], [], []⟩,
        ⟨[Node.linkStylesheet h, Node.linkPreloadFont pf, Node.linkIcon ic],
         [Node.scriptSrc sc, Node.img im]⟩, "", "", 0, 0⟩ : Ctx) =
      ⟨⟨[Call.text u, Call.text (resolveUrl u h),
         Call.blob (resolveUrl (resolveUrl u h) tok)], w1,
        [(resolveUrl u h, jsOr (fileNameFromUrl (resolveUrl u h)) "style.css")], [], [], ft1⟩,
       ⟨[Node.linkStylesheet X1, Node.linkPreloadFont pf, Node.linkIcon ic],
        [Node.scriptSrc sc, Node.img im]⟩, "", "", 0, 0⟩ := by
    rcases hb : f.blob (resolveUrl (resolveUrl u h) tok) with _ | b
    · refine ⟨[("website/css/" ++ jsOr (fileNameFromUrl (resolveUrl u h)) "style.css", css)],
              [], "css/" ++ jsOr (fileNameFromUrl (resolveUrl u h)) "style.css", ?_⟩
      simp only [onStDoc, overDoc, mapAccum, cssStep, hftc, htok, cssAssets, hfont,
                 if_true, fetchBlob, hb, List.nil_append, List.cons_append,
                 List.append_nil, List.append_assoc]
    · refine ⟨[("website/css/" ++ jsOr (fileNameFromUrl (resolveUrl u h)) "style.css", css),
               ("website/fonts/" ++ fileNameFromUrl (resolveUrl (resolveUrl u h) tok), b)],
              [(resolveUrl (resolveUrl u h) tok,
                fileNameFromUrl (resolveUrl (resolveUrl u h) tok))],
              "css/" ++ jsOr (fileNameFromUrl (resolveUrl u h)) "style.css", ?_⟩
      simp only [onStDoc, overDoc, mapAccum, cssStep, hftc, htok, cssAssets, hfont,
                 if_true, fetchBlob, hb, List.nil_append, List.cons_append,
                 List.append_nil, List.append_assoc]
  rw [hcssPh]
  rw [show onStDoc (overDoc (jsStep f u))
      (⟨⟨[Call.text u, Call.text (resolveUrl u h),
          Call.blob (resolveUrl (resolveUrl u h) tok)], w1,
         [(resolveUrl u h, jsOr (fileNameFromUrl (resolveUrl u h)) "style.css")], [], [], ft1⟩,
        ⟨[Node.linkStylesheet X1, Node.linkPreloadFont pf, Node.linkIcon ic],
         [Node.scriptSrc sc, Node.img im]⟩, "", "", 0, 0⟩ : Ctx) =
      ⟨⟨[Call.text u, Call.text (resolveUrl u h),
         Call.blob (resolveUrl (resolveUrl u h) tok), Call.text (resolveUrl u sc)],
        w1 ++ [("website/js/" ++ jsOr (fileNameFromUrl (resolveUrl u sc)) "script.js",
                fetchText f (resolveUrl u sc))],
        [(resolveUrl u h, jsOr (fileNameFromUrl (resolveUrl u h)) "style.css")],
        [(resolveUrl u sc, jsOr (fileNameFromUrl (resolveUrl u sc)) "script.js")], [], ft1⟩,
       ⟨[Node.linkStylesheet X1, Node.linkPreloadFont pf, Node.linkIcon ic],
        [Node.scriptSrc ("js/" ++ jsOr (fileNameFromUrl (resolveUrl u sc)) "script.js"),
         Node.img im]⟩, "", "", 0, 0⟩ from rfl]
  obtain ⟨w2, i2, X4, himgPh⟩ : ∃ w2 i2 X4, onStDoc (overDoc (imgStep f u))
      (⟨⟨[Call.text u, Call.text (resolveUrl u h),
          Call.blob (resolveUrl (resolveUrl u h) tok), Call.text (resolveUrl u sc)],
         w1 ++ [("website/js/" ++ jsOr (fileNameFromUrl (resolveUrl u sc)) "script.js",
                 fetchText f (resolveUrl u sc))],
         [(resolveUrl u h, jsOr (fileNameFromUrl (resolveUrl u h)) "style.css")],
         [(resolveUrl u sc, jsOr (fileNameFromUrl (resolveUrl u sc)) "script.js")], [], ft1⟩,
        ⟨[Node.linkStylesheet X1, Node.linkPreloadFont pf, Node.linkIcon ic],
         [Node.scriptSrc ("js/" ++ jsOr (fileNameFromUrl (resolveUrl u sc)) "script.js"),
          Node.img im]⟩, "", "", 0, 0⟩ : Ctx) =
      ⟨⟨[Call.text u, Call.text (resolveUrl u h),
         Call.blob (resolveUrl (resolveUrl u h) tok), Call.text (resolveUrl u sc),
         Call.blob (resolveUrl u im)], w2,
        [(resolveUrl u h, jsOr (fileNameFromUrl (resolveUrl u h)) "style.css")],
        [(resolveUrl u sc, jsOr (fileNameFromUrl (resolveUrl u sc)) "script.js")], i2, ft1⟩,
       ⟨[Node.linkStylesheet X1, Node.linkPreloadFont pf, Node.linkIcon ic],
        [Node.scriptSrc ("js/" ++ jsOr (fileNameFromUrl (resolveUrl u sc)) "script.js"),
         Node.img X4]⟩, "", "", 0, 0⟩ := by
    rcases hb : f.blob (resolveUrl u im) with _ | b
    · refine ⟨w1 ++ [("website/js/" ++ jsOr (fileNameFromUrl (resolveUrl u sc)) "script.js",
                      fetchText f (resolveUrl u sc))],
              [(resolveUrl u im, none)], im, ?_⟩
      simp only [onStDoc, overDoc, mapAccum, imgStep, fetchBlob, hb, List.nil_append,
                 List.cons_append, List.append_nil, List.append_assoc]
    · refine ⟨w1 ++ [("website/js/" ++ jsOr (fileNameFromUrl (resolveUrl u sc)) "script.js",
                      fetchText f (resolveUrl u sc)),
                     ("website/images/" ++ fileNameFromUrl (resolveUrl u im), b)],
              [(resolveUrl u im, some (fileNameFromUrl (resolveUrl u im)))],
              "images/" ++ fileNameFromUrl (resolveUrl u im), ?_⟩
      simp only [onStDoc, overDoc, mapAccum, imgStep, fetchBlob, hb, List.nil_append,
                 List.cons_append, List.append_nil, List.append_assoc]
  rw [himgPh]
  obtain ⟨w3, X5, hiconPh⟩ : ∃ w3 X5, onStDoc (iconPhase f u)
      (⟨⟨[Call.text u, Call.text (resolveUrl u h),
          Call.blob (resolveUrl (resolveUrl u h) tok), Call.text (resolveUrl u sc),
          Call.blob (resolveUrl u im)], w2,
         [(resolveUrl u h, jsOr (fileNameFromUrl (resolveUrl u h)) "style.css")],
         [(resolveUrl u sc, jsOr (fileNameFromUrl (resolveUrl u sc)) "script.js")], i2, ft1⟩,
        ⟨[Node.linkStylesheet X1, Node.linkPreloadFont pf, Node.linkIcon ic],
         [Node.scriptSrc ("js/" ++ jsOr (fileNameFromUrl (resolveUrl u sc)) "script.js"),
          Node.img X4]⟩, "", "", 0, 0⟩ : Ctx) =
      ⟨⟨[Call.text u, Call.text (resolveUrl u h),
         Call.blob (resolveUrl (resolveUrl u h) tok), Call.text (resolveUrl u sc),
         Call.blob (resolveUrl u im), Call.blob (resolveUrl u ic)], w3,
        [(resolveUrl u h, jsOr (fileNameFromUrl (resolveUrl u h)) "style.css")],
        [(resolveUrl u sc, jsOr (fileNameFromUrl (resolveUrl u sc)) "script.js")], i2, ft1⟩,
       ⟨[Node.linkStylesheet X1, Node.linkPreloadFont pf, Node.linkIcon X5],
        [Node.scriptSrc ("js/" ++ jsOr (fileNameFromUrl (resolveUrl u sc)) "script.js"),
         Node.img X4]⟩, "", "", 0, 0⟩ := by
    rcases hb : f.blob (resolveUrl u ic) with _ | b
    · refine ⟨w2, ic, ?_⟩
      simp only [onStDoc, iconPhase, findIcon, fetchBlob, hb, List.nil_append,
                 List.cons_append, List.append_nil, List.append_assoc]
    · refine ⟨w2 ++ [("website/" ++ jsOr (fileNameFromUrl (resolveUrl u ic)) "favicon.ico", b)],
              jsOr (fileNameFromUrl (resolveUrl u ic)) "favicon.ico", ?_⟩
      simp only [onStDoc, iconPhase, findIcon, fetchBlob, hb, rewriteIcon, rewriteIconIn,
                 if_true, List.nil_append, List.cons_append, List.append_nil,
                 List.append_assoc]
  rw [hiconPh]
  obtain ⟨w4, ft4, X6, hpre⟩ : ∃ w4 ft4 X6, onStDoc (overDoc (preloadStep f u))
      (⟨⟨[Call.text u, Call.text (resolveUrl u h),
          Call.blob (resolveUrl (resolveUrl u h) tok), Call.text (resolveUrl u sc),
          Call.blob (resolveUrl u im), Call.blob (resolveUrl u ic)], w3,
         [(resolveUrl u h, jsOr (fileNameFromUrl (resolveUrl u h)) "style.css")],
         [(resolveUrl u sc, jsOr (fileNameFromUrl (resolveUrl u sc)) "script.js")], i2, ft1⟩,
        ⟨[Node.linkStylesheet X1, Node.linkPreloadFont pf, Node.linkIcon X5],
         [Node.scriptSrc ("js/" ++ jsOr (fileNameFromUrl (resolveUrl u sc)) "script.js"),
          Node.img X4]⟩, "", "", 0, 0⟩ : Ctx) =
      ⟨⟨[Call.text u, Call.text (resolveUrl u h),
         Call.blob (resolveUrl (resolveUrl u h) tok), Call.text (resolveUrl u sc),
         Call.blob (resolveUrl u im), Call.blob (resolveUrl u ic),
         Call.blob (resolveUrl u pf)], w4,
        [(resolveUrl u h, jsOr (fileNameFromUrl (resolveUrl u h)) "style.css")],
        [(resolveUrl u sc, jsOr (fileNameFromUrl (resolveUrl u sc)) "script.js")], i2, ft4⟩,
       ⟨[Node.linkStylesheet X1, Node.linkPreloadFont X6, Node.linkIcon X5],
        [Node.scriptSrc ("js/" ++ jsOr (fileNameFromUrl (resolveUrl u sc)) "script.js"),
         Node.img X4]⟩, "", "", 0, 0⟩ := by
    rcases hb : f.blob (resolveUrl u pf) with _ | b
    · refine ⟨w3, ft1, pf, ?_⟩
      simp only [onStDoc, overDoc, mapAccum, preloadStep, fetchBlob, hb, List.nil_append,
                 List.cons_append, List.append_nil, List.append_assoc]
    · refine ⟨w3 ++ [("website/fonts/" ++ fileNameFromUrl (resolveUrl u pf), b)],
              ft1 ++ [(resolveUrl u pf, fileNameFromUrl (resolveUrl u pf))],
              "fonts/" ++ fileNameFromUrl (resolveUrl u pf), ?_⟩
      simp only [onStDoc, overDoc, mapAccum, preloadStep, fetchBlob, hb, List.nil_append,
                 List.cons_append, List.append_nil, List.append_assoc]
  rw [hpre]
  rfl

/-- C9: when the document holds an inline `<style>` block with
non-whitespace content, the synthesized
`<link rel=stylesheet href="css/inline-styles.css">` is selected by
the later external-stylesheet query: the text fetcher is invoked on
`resolveUrl pageUrl "css/inline-styles.css"`, the fetched text
overwrites the `css/inline-styles.css` archive entry during the CSS
phase and the combined inline CSS is only restored by the final
re-write (the write log for that path is
`[combined, fetched, combined]`), and the synthetic entry is counted
in `cssFiles`, making the audit's external-asset count 1 for a
document with no real external assets. -/
theorem c9_theorem (f : Fetcher) (ser : Doc → String) (a1 a2 : Doc → Meta → String)
    (html : String) (hroot : f.text "https://x.com/" = some html) (hne : html ≠ "")
    (hsyn : extractUrlsFromCss
        (fetchText f (resolveUrl "https://x.com/" "css/inline-styles.css")) = [])
    (hfav : f.blob (resolveUrl "https://x.com/" "/favicon.ico") = none) :
    (processSite f (fun _ => ⟨[Node.styleBlock "x{color:red}"], []⟩)
        ser a1 a2 "https://x.com/").map
      (fun r => (r.trace, writesTo "website/css/inline-styles.css" r.writes,
                 r.meta.cssFiles, totalAssets r.meta)) =
      some ([Call.text "https://x.com/",
             Call.text (resolveUrl "https://x.com/" "css/inline-styles.css"),
             Call.blob (resolveUrl "https://x.com/" "/favicon.ico")],
            ["x{color:red}\n\n",
             fetchText f (resolveUrl "https://x.com/" "css/inline-styles.css"),
             "x{color:red}\n\n"],
            [(resolveUrl "https://x.com/" "css/inline-styles.css", "inline-styles.css")],
            1) := by
  have hft : fetchText f "https://x.com/" = html := by simp [fetchText, hroot]
  simp only [processSite, hft, if_neg hne]
  rw [show extractPhase "https://x.com/" (⟨[Node.styleBlock "x{color:red}"], []⟩ : Doc) =
      ⟨⟨[Call.text "https://x.com/"],
        [("website/css/inline-styles.css", "x{color:red}\n\n")], [], [], [], []⟩,
       ⟨[Node.linkStylesheet "css/inline-styles.css"], []⟩,
       "x{color:red}\n\n", "", 1, 0⟩ from rfl]
  have hcssPh : onStDoc (overDoc (cssStep f "https://x.com/"))
      (⟨⟨[Call.text "https://x.com/"],
         [("website/css/inline-styles.css", "x{color:red}\n\n")], [], [], [], []⟩,
        ⟨[Node.linkStylesheet "css/inline-styles.css"], []⟩,
        "x{color:red}\n\n", "", 1, 0⟩ : Ctx) =
      ⟨⟨[Call.text "https://x.com/",
         Call.text (resolveUrl "https://x.com/" "css/inline-styles.css")],
        [("website/css/inline-styles.css", "x{color:red}\n\n"),
         ("website/css/" ++
            jsOr (fileNameFromUrl (resolveUrl "https://x.com/" "css/inline-styles.css"))
              "style.css",
          fetchText f (resolveUrl "https://x.com/" "css/inline-styles.css"))],
        [(resolveUrl "https://x.com/" "css/inline-styles.css",
          jsOr (fileNameFromUrl (resolveUrl "https://x.com/" "css/inline-styles.css"))
            "style.css")], [], [], []⟩,
       ⟨[Node.linkStylesheet
           ("css/" ++
             jsOr (fileNameFromUrl (resolveUrl "https://x.com/" "css/inline-styles.css"))
               "style.css")], []⟩,
       "x{color:red}\n\n", "", 1, 0⟩ := by
    simp only [onStDoc, overDoc, mapAccum, cssStep, hsyn, cssAssets, List.nil_append,
               List.cons_append, List.append_nil]
  rw [hcssPh]
  rw [show onStDoc (overDoc (jsStep f "https://x.com/"))
      (⟨⟨[Call.text "https://x.com/",
          Call.text (resolveUrl "https://x.com/" "css/inline-styles.css")],
         [("website/css/inline-styles.css", "x{color:red}\n\n"),
          ("website/css/" ++
             jsOr (fileNameFromUrl (resolveUrl "https://x.com/" "css/inline-styles.css"))
               "style.css",
           fetchText f (resolveUrl "https://x.com/" "css/inline-styles.css"))],
         [(resolveUrl "https://x.com/" "css/inline-styles.css",
           jsOr (fileNameFromUrl (resolveUrl "https://x.com/" "css/inline-styles.css"))
             "style.css")], [], [], []⟩,
        ⟨[Node.linkStylesheet
            ("css/" ++
              jsOr (fileNameFromUrl (resolveUrl "https://x.com/" "css/inline-styles.css"))
                "style.css")], []⟩,
        "x{color:red}\n\n", "", 1, 0⟩ : Ctx) =
      ⟨⟨[Call.text "https://x.com/",
         Call.text (resolveUrl "https://x.com/" "css/inline-styles.css")],
        [("website/css/inline-styles.css", "x{color:red}\n\n"),
         ("website/css/" ++
            jsOr (fileNameFromUrl (resolveUrl "https://x.com/" "css/inline-styles.css"))
              "style.css",
          fetchText f (resolveUrl "https://x.com/" "css/inline-styles.css"))],
        [(resolveUrl "https://x.com/" "css/inline-styles.css",
          jsOr (fileNameFromUrl (resolveUrl "https://x.com/" "css/inline-styles.css"))
            "style.css")], [], [], []⟩,
       ⟨[Node.linkStylesheet
           ("css/" ++
             jsOr (fileNameFromUrl (resolveUrl "https://x.com/" "css/inline-styles.css"))
               "style.css")], []⟩,
       "x{color:red}\n\n", "", 1, 0⟩ from rfl]
  rw [show onStDoc (overDoc (imgStep f "https://x.com/"))
      (⟨⟨[Call.text "https://x.com/",
          Call.text (resolveUrl "https://x.com/" "css/inline-styles.css")],
         [("website/css/inline-styles.css", "x{color:red}\n\n"),
          ("website/css/" ++
             jsOr (fileNameFromUrl (resolveUrl "https://x.com/" "css/inline-styles.css"))
               "style.css",
           fetchText f (resolveUrl "https://x.com/" "css/inline-styles.css"))],
         [(resolveUrl "https://x.com/" "css/inline-styles.css",
           jsOr (fileNameFromUrl (resolveUrl "https://x.com/" "css/inline-styles.css"))
             "style.css")], [], [], []⟩,
        ⟨[Node.linkStylesheet
            ("css/" ++
              jsOr (fileNameFromUrl (resolveUrl "https://x.com/" "css/inline-styles.css"))
                "style.css")], []⟩,
        "x{color:red}\n\n", "", 1, 0⟩ : Ctx) =
      ⟨⟨[Call.text "https://x.com/",
         Call.text (resolveUrl "https://x.com/" "css/inline-styles.css")],
        [("website/css/inline-styles.css", "x{color:red}\n\n"),
         ("website/css/" ++
            jsOr (fileNameFromUrl (resolveUrl "https://x.com/" "css/inline-styles.css"))
              "style.css",
          fetchText f (resolveUrl "https://x.com/" "css/inline-styles.css"))],
        [(resolveUrl "https://x.com/" "css/inline-styles.css",
          jsOr (fileNameFromUrl (resolveUrl "https://x.com/" "css/inline-styles.css"))
            "style.css")], [], [], []⟩,
       ⟨[Node.linkStylesheet
           ("css/" ++
             jsOr (fileNameFromUrl (resolveUrl "https://x.com/" "css/inline-styles.css"))
               "style.css")], []⟩,
       "x{color:red}\n\n", "", 1, 0⟩ from rfl]
  have hicon : ∀ (s : St),
      iconPhase f "https://x.com/" s
        (⟨[Node.linkStylesheet
             ("css/" ++
               jsOr (fileNameFromUrl (resolveUrl "https://x.com/" "css/inline-styles.css"))
                 "style.css")], []⟩ : Doc) =
      ({ s with trace := s.trace ++ [Call.blob (resolveUrl "https://x.com/" "/favicon.ico")] },
       ⟨[Node.linkStylesheet
           ("css/" ++
             jsOr (fileNameFromUrl (resolveUrl "https://x.com/" "css/inline-styles.css"))
               "style.css")], []⟩) := by
    intro s
    simp only [iconPhase, findIcon, fetchBlob, hfav]
  simp only [onStDoc, hicon]
  rfl

/-- C7, witness: the resolution theorem applied at a concrete fetcher
whose stylesheet text is `url(f.woff2)`: the font URL resolves against
the stylesheet directory `a/`, everything else against the page root. -/
theorem c7_witness :
    (processSite ⟨fun s => if s = "https://x.com/" then some "<p>"
                           else if s = "https://x.com/a/style.css" then some "url(f.woff2)"
                           else none,
                  fun _ => some "B"⟩
        (fun _ => ⟨[Node.linkStylesheet "a/style.css", Node.linkPreloadFont "p.woff2",
                    Node.linkIcon "icon.png"],
                   [Node.scriptSrc "app.js", Node.img "pic.png"]⟩)
        (fun _ => "") (fun _ _ => "") (fun _ _ => "") "https://x.com/").map
        RunResult.trace =
      some [Call.text "https://x.com/", Call.text "https://x.com/a/style.css",
            Call.blob "https://x.com/a/f.woff2", Call.text "https://x.com/app.js",
            Call.blob "https://x.com/pic.png", Call.blob "https://x.com/icon.png",
            Call.blob "https://x.com/p.woff2"] :=
  c7_theorem ⟨fun s => if s = "https://x.com/" then some "<p>"
                       else if s = "https://x.com/a/style.css" then some "url(f.woff2)"
                       else none,
              fun _ => some "B"⟩
    (fun _ => "") (fun _ _ => "") (fun _ _ => "") "https://x.com/" "a/style.css" "p.woff2"
    "icon.png" "app.js" "pic.png" "f.woff2" "url(f.woff2)" "<p>"
    (by decide) (by decide) (by decide) (by decide) (by decide)

/-- C9, witness: the synthetic-stylesheet theorem applied at a concrete
fetcher returning `p{}` for the synthetic stylesheet URL. -/
theorem c9_witness :
    (processSite ⟨fun s => if s = "https://x.com/" then some "<html>" else some "p{}",
                  fun _ => none⟩
        (fun _ => ⟨[Node.styleBlock "x{color:red}"], []⟩)
        (fun _ => "") (fun _ _ => "") (fun _ _ => "") "https://x.com/").map
      (fun r => (r.trace, writesTo "website/css/inline-styles.css" r.writes,
                 r.meta.cssFiles, totalAssets r.meta)) =
      some ([Call.text "https://x.com/", Call.text "https://x.com/css/inline-styles.css",
             Call.blob "https://x.com/favicon.ico"],
            ["x{color:red}\n\n", "p{}", "x{color:red}\n\n"],
            [("https://x.com/css/inline-styles.css", "inline-styles.css")], 1) :=
  c9_theorem ⟨fun s => if s = "https://x.com/" then some "<html>" else some "p{}",
              fun _ => none⟩
    (fun _ => "") (fun _ _ => "") (fun _ _ => "") "<html>"
    (by decide) (by decide) (by decide) (by decide)

end Axis
